import Mathlib

/-!
Verification of the browser-canvas orchestration core.

This file gives a shallow embedding, in Lean, of the server-side modules of
the repository (`validators.ts`, `validation-status.ts`, `websocket.ts`,
`canvas-manager.ts`, `watcher.ts`, and the WebSocket open/message handlers of
`src/server/index.ts`), and proves properties of the embedded operations.

Modelling conventions:
* JavaScript `Map` objects are association lists (`List (String × α)`)
  manipulated through `jsMapGet` / `jsMapSet` / `jsMapDelete`, mirroring
  `Map.get` / `Map.set` / `Map.delete`.
* JavaScript `Set` objects are duplicate-free lists in insertion order,
  manipulated through `jsSetAdd` (no-op when present) and `List.filter`
  for deletion.
* Asynchronous effects (file writes, WebSocket sends, timers) are made
  explicit: functions return the written disk map, the list of delivered
  messages, or the new timer map.
* JavaScript function identity (needed for `Array.prototype.indexOf` on
  callbacks) is modelled by an inductive type whose constructors distinguish
  the distinct closure objects created by the source.
* Timestamps are natural numbers; the optional structured `details` payload
  of notices is not modelled (no property below refers to it).
-/

namespace BrowserCanvas

/-! ## JavaScript collection primitives -/

/-- `Map.get`: value of the first binding of `k`, if any. -/
def jsMapGet {α : Type} (m : List (String × α)) (k : String) : Option α :=
  match m with
  | [] => none
  | (k', v) :: rest => if k' = k then some v else jsMapGet rest k

/-- `Map.set`: replace the first binding of `k`, or append a new one. -/
def jsMapSet {α : Type} (m : List (String × α)) (k : String) (v : α) :
    List (String × α) :=
  match m with
  | [] => [(k, v)]
  | (k', v') :: rest =>
      if k' = k then (k, v) :: rest else (k', v') :: jsMapSet rest k v

/-- `Map.delete`: remove the bindings of `k`. -/
def jsMapDelete {α : Type} (m : List (String × α)) (k : String) :
    List (String × α) :=
  m.filter (fun p => p.1 ≠ k)

/-- `Set.add` on an insertion-ordered duplicate-free list. -/
def jsSetAdd {α : Type} [DecidableEq α] (s : List α) (x : α) : List α :=
  if s.contains x then s else s ++ [x]

/-- `String.prototype.includes`, on character lists. -/
def listContainsSub {α : Type} [DecidableEq α] (needle : List α) :
    List α → Bool
  | [] => needle.isEmpty
  | c :: cs => needle.isPrefixOf (c :: cs) || listContainsSub needle cs

/-- `String.prototype.includes`. -/
def jsIncludes (hay needle : String) : Bool :=
  listContainsSub needle.data hay.data

/-! Lemmas about the map primitives. -/

theorem jsMapGet_set_self {α : Type} (m : List (String × α)) (k : String)
    (v : α) : jsMapGet (jsMapSet m k v) k = some v := by
  induction m with
  | nil => simp [jsMapGet, jsMapSet]
  | cons p rest ih =>
      obtain ⟨k', v'⟩ := p
      by_cases h : k' = k
      · simp [jsMapGet, jsMapSet, h]
      · simp [jsMapGet, jsMapSet, h, ih]

theorem jsMapGet_set_ne {α : Type} (m : List (String × α)) (k k' : String)
    (v : α) (h : k' ≠ k) :
    jsMapGet (jsMapSet m k v) k' = jsMapGet m k' := by
  induction m with
  | nil => simp [jsMapGet, jsMapSet, Ne.symm h]
  | cons p rest ih =>
      obtain ⟨k₀, v₀⟩ := p
      by_cases hk : k₀ = k
      · subst hk
        simp [jsMapGet, jsMapSet, Ne.symm h]
      · simp [jsMapGet, jsMapSet, hk, ih]

theorem jsMapSet_same {α : Type} (m : List (String × α)) (k : String) (v : α)
    (h : jsMapGet m k = some v) : jsMapSet m k v = m := by
  induction m with
  | nil => simp [jsMapGet] at h
  | cons p rest ih =>
      obtain ⟨k₀, v₀⟩ := p
      by_cases hk : k₀ = k
      · subst hk
        simp [jsMapGet] at h
        simp [jsMapSet, h]
      · simp [jsMapGet, hk] at h
        simp [jsMapSet, hk, ih h]

theorem jsMapGet_delete_self {α : Type} (m : List (String × α)) (k : String) :
    jsMapGet (jsMapDelete m k) k = none := by
  induction m with
  | nil => simp [jsMapGet, jsMapDelete]
  | cons p rest ih =>
      obtain ⟨k₀, v₀⟩ := p
      by_cases hk : k₀ = k
      · simpa [jsMapDelete, hk] using ih
      · simpa [jsMapDelete, hk, jsMapGet] using ih

theorem jsMapGet_mem {α : Type} (m : List (String × α)) (k : String) (v : α)
    (h : jsMapGet m k = some v) : (k, v) ∈ m := by
  induction m with
  | nil => simp [jsMapGet] at h
  | cons p rest ih =>
      obtain ⟨k₀, v₀⟩ := p
      by_cases hk : k₀ = k
      · subst hk
        simp [jsMapGet] at h
        simp [h]
      · simp [jsMapGet, hk] at h
        exact List.mem_cons_of_mem _ (ih h)

theorem mem_jsMapSet {α : Type} (m : List (String × α)) (k : String) (v : α)
    (p : String × α) (h : p ∈ jsMapSet m k v) : p ∈ m ∨ p = (k, v) := by
  induction m with
  | nil => simpa [jsMapSet] using h
  | cons q rest ih =>
      obtain ⟨k₀, v₀⟩ := q
      by_cases hk : k₀ = k
      · simp [jsMapSet, hk] at h
        rcases h with h | h
        · exact Or.inr h
        · exact Or.inl (List.mem_cons_of_mem _ h)
      · simp [jsMapSet, hk] at h
        rcases h with h | h
        · exact Or.inl (by simp [h])
        · rcases ih h with h' | h'
          · exact Or.inl (List.mem_cons_of_mem _ h')
          · exact Or.inr h'

theorem jsMapGet_isSome_set {α : Type} (m : List (String × α))
    (k k' : String) (v : α) (h : (jsMapGet m k').isSome) :
    (jsMapGet (jsMapSet m k v) k').isSome := by
  by_cases hk : k' = k
  · subst hk
    simp [jsMapGet_set_self]
  · rwa [jsMapGet_set_ne _ _ _ _ hk]

/-! ## `log.ts`: the notice data model

`noticeEntry(severity, category, message, details?)` builds one validation
finding.  The optional structured `details` record is not modelled: no
property below refers to it (the timestamp `ts` is attached only at append
time by `appendLog`/`appendLogs`, so validator notices carry none). -/

/-- `NoticeSeverity` from `log.ts`. -/
inductive NoticeSeverity
  | error
  | warning
  | info
deriving DecidableEq, Repr

/-- `NoticeCategory` from `log.ts`. -/
inductive NoticeCategory
  | runtime
  | lint
  | eslint
  | scope
  | tailwind
  | overflow
  | image
  | bundle
deriving DecidableEq, Repr

/-- A validator notice: a `NoticeLogEntry` without its `ts` field. -/
structure ValidatorNotice where
  severity : NoticeSeverity
  category : NoticeCategory
  message : String
deriving DecidableEq, Repr

/-- `noticeEntry` from `log.ts` (without the unmodelled `details`). -/
def noticeEntry (severity : NoticeSeverity) (category : NoticeCategory)
    (message : String) : ValidatorNotice :=
  ⟨severity, category, message⟩

/-! ## `validators.ts`: character-level embedding

The regular expressions of `validators.ts` are simple enough to embed as
explicit character scanners with the same leftmost, non-overlapping, resume-
after-match semantics as `RegExp.prototype.exec` with the `g` flag. -/

/-- The character class `[A-Z]`. -/
def isUpperAscii (c : Char) : Bool :=
  'A' ≤ c && c ≤ 'Z'

/-- The character class `[a-zA-Z0-9]`. -/
def isAlnumAscii (c : Char) : Bool :=
  ('a' ≤ c && c ≤ 'z') || ('A' ≤ c && c ≤ 'Z') || ('0' ≤ c && c ≤ '9')

/-- The character class `\s` (the common JavaScript whitespace characters). -/
def jsSpace (c : Char) : Bool :=
  c = ' ' || c = '\t' || c = '\n' || c = '\r' || c = Char.ofNat 11 ||
    c = Char.ofNat 12

/-- The apostrophe character, used by several notice messages. -/
def apos : String :=
  String.singleton (Char.ofNat 39)

/-- Greedy `[a-zA-Z0-9]*`: the matched run and the remaining input. -/
def takeAlnum : List Char → List Char × List Char
  | [] => ([], [])
  | c :: cs =>
      if isAlnumAscii c then
        let r := takeAlnum cs
        (c :: r.1, r.2)
      else ([], c :: cs)

/-- Greedy `\s*` (safe before a non-space continuation). -/
def skipSpaces : List Char → List Char
  | [] => []
  | c :: cs => if jsSpace c then skipSpaces cs else c :: cs

/-- `[A-Z][a-zA-Z0-9]*`: the captured identifier and the remaining input. -/
def matchCapIdent : List Char → Option (String × List Char)
  | [] => none
  | c :: cs =>
      if isUpperAscii c then
        let r := takeAlnum cs
        some (String.mk (c :: r.1), r.2)
      else none

theorem takeAlnum_length (cs : List Char) :
    (takeAlnum cs).2.length ≤ cs.length := by
  induction cs with
  | nil => simp [takeAlnum]
  | cons c cs ih =>
      by_cases h : isAlnumAscii c <;> simp [takeAlnum, h] <;> omega

theorem skipSpaces_length (cs : List Char) :
    (skipSpaces cs).length ≤ cs.length := by
  induction cs with
  | nil => simp [skipSpaces]
  | cons c cs ih =>
      by_cases h : jsSpace c <;> simp [skipSpaces, h] <;> omega

theorem matchCapIdent_length (cs : List Char) (p : String × List Char)
    (h : matchCapIdent cs = some p) : p.2.length < cs.length := by
  cases cs with
  | nil => simp [matchCapIdent] at h
  | cons c cs =>
      by_cases hu : isUpperAscii c
      · simp [matchCapIdent, hu] at h
        have := takeAlnum_length cs
        subst h
        simpa using Nat.lt_succ_of_le this
      · simp [matchCapIdent, hu] at h

/-- The keyword alternation of the declaration pattern
`(?:function|const|let|var|class)\s+([A-Z][a-zA-Z0-9]*)`. -/
def declKeywords : List String :=
  ["function", "const", "let", "var", "class"]

/-- The `\s+([A-Z][a-zA-Z0-9]*)` tail of the declaration pattern. -/
def matchDeclTail : List Char → Option (String × List Char)
  | [] => none
  | c :: rest => if jsSpace c then matchCapIdent (skipSpaces rest) else none

/-- One attempt of the declaration pattern at the current position. -/
def matchDeclAt (cs : List Char) : Option (String × List Char) :=
  match declKeywords.find? (fun kw => kw.data.isPrefixOf cs) with
  | none => none
  | some kw => matchDeclTail (cs.drop kw.data.length)

theorem matchDeclTail_length (cs : List Char) (p : String × List Char)
    (h : matchDeclTail cs = some p) : p.2.length < cs.length := by
  cases cs with
  | nil => simp [matchDeclTail] at h
  | cons c rest =>
      by_cases hs : jsSpace c
      · simp [matchDeclTail, hs] at h
        have h1 := matchCapIdent_length _ _ h
        have h2 := skipSpaces_length rest
        simp only [List.length_cons]
        omega
      · simp [matchDeclTail, hs] at h

theorem matchDeclAt_length (cs : List Char) (p : String × List Char)
    (h : matchDeclAt cs = some p) : p.2.length < cs.length := by
  unfold matchDeclAt at h
  cases hf : declKeywords.find? (fun kw => kw.data.isPrefixOf cs) with
  | none => simp [hf] at h
  | some kw =>
      rw [hf] at h
      have h1 := matchDeclTail_length _ _ h
      have h2 : (cs.drop kw.data.length).length ≤ cs.length := by
        simp [List.length_drop]
      omega

/-- The `/g` scan of the declaration pattern: all captured identifiers in
order, non-overlapping, resuming after each match. -/
def scanDecls (cs : List Char) : List String :=
  match cs with
  | [] => []
  | c :: rest =>
      match h : matchDeclAt (c :: rest) with
      | some p => p.1 :: scanDecls p.2
      | none => scanDecls rest
termination_by cs.length
decreasing_by
  · exact matchDeclAt_length _ _ h
  · simp

/-- The `/g` scan of the JSX component pattern `<([A-Z][a-zA-Z0-9]*)`. -/
def scanComponents (cs : List Char) : List String :=
  match cs with
  | [] => []
  | c :: rest =>
      if c = '<' then
        match h : matchCapIdent rest with
        | some p => p.1 :: scanComponents p.2
        | none => scanComponents rest
      else scanComponents rest
termination_by cs.length
decreasing_by
  · exact Nat.lt_trans (matchCapIdent_length _ _ h) (by simp)
  · simp
  · simp

/-- The globals skipped by `validateScope`. -/
def builtinGlobals : List String :=
  ["React", "Array", "Object", "String", "Number", "Boolean", "Date", "Math",
   "JSON", "Promise", "Error", "Map", "Set", "Symbol", "RegExp", "Intl"]

/-- A JavaScript `Set` built from a list: first-occurrence order, no
duplicates (`Set` iteration order is insertion order). -/
def jsSetOfList (xs : List String) : List String :=
  xs.foldl jsSetAdd []

/-- `validateScope` from `validators.ts`: flags JSX components used but
neither declared in the payload, nor a builtin global, nor among the
available identifiers.  The `findSimilar` suggestion feeds only the
unmodelled `details` record. -/
def validateScope (code : String) (availableIdentifiers : List String) :
    List ValidatorNotice :=
  let declaredIdentifiers := scanDecls code.data
  let usedIdentifiers := jsSetOfList (scanComponents code.data)
  usedIdentifiers.filterMap fun identifier =>
    if declaredIdentifiers.contains identifier then none
    else if builtinGlobals.contains identifier then none
    else if availableIdentifiers.contains identifier then none
    else
      some (noticeEntry .error .scope
        (apos ++ identifier ++ apos ++ " is not available in scope"))

/-- One diagnostic of `Linter.verify` (the fields `validateESLint` reads:
`severity` is `2` for an error, and `message`; the position fields feed only
the unmodelled `details` record). -/
structure LintMessage where
  severity : Nat
  message : String
deriving DecidableEq, Repr

/-- `validateESLint` from `validators.ts`.  The external `linter.verify`
call — the only part of the check that can throw — is a parameter returning
either its diagnostics or a thrown exception rendered as a string; the
`try`/`catch` of the source becomes the `Except.error` branch, producing the
single synthetic notice. -/
def validateESLint (verify : String → Except String (List LintMessage))
    (code : String) : List ValidatorNotice :=
  match verify code with
  | Except.error err =>
      [noticeEntry .error .eslint ("ESLint failed: " ++ err)]
  | Except.ok messages =>
      messages.filterMap fun msg =>
        if jsIncludes msg.message "No matching configuration found" then none
        else
          some (noticeEntry (if msg.severity = 2 then .error else .warning)
            .eslint msg.message)

/-- The backquote character (part of the quote class of the extraction
patterns of `validateTailwind`). -/
def backquote : Char :=
  Char.ofNat 96

/-- The quote class `["'` ++ backquote ++ `]`. -/
def isQuoteChar (c : Char) : Bool :=
  c = '"' || c = Char.ofNat 39 || c = backquote

/-- Greedy `[^"'` ++ backquote ++ `]*`. -/
def takeNonQuote : List Char → List Char × List Char
  | [] => ([], [])
  | c :: cs =>
      if isQuoteChar c then ([], c :: cs)
      else
        let r := takeNonQuote cs
        (c :: r.1, r.2)

theorem takeNonQuote_length (cs : List Char) :
    (takeNonQuote cs).2.length ≤ cs.length := by
  induction cs with
  | nil => simp [takeNonQuote]
  | cons c cs ih =>
      by_cases h : isQuoteChar c <;> simp [takeNonQuote, h] <;> omega

/-- A quoted class string: an opening quote, a non-empty quote-free body,
and a closing quote (any of the three quote characters, as in the source
patterns). -/
def matchQuoted : List Char → Option (String × List Char)
  | [] => none
  | c :: cs =>
      if isQuoteChar c then
        match takeNonQuote cs with
        | ([], _) => none
        | (_, []) => none
        | (body, q :: rest) =>
            if isQuoteChar q then some (String.mk body, rest) else none
      else none

theorem matchQuoted_length (cs : List Char) (p : String × List Char)
    (h : matchQuoted cs = some p) : p.2.length < cs.length := by
  cases cs with
  | nil => simp [matchQuoted] at h
  | cons c cs =>
      by_cases hq : isQuoteChar c
      · simp only [matchQuoted, hq, if_true] at h
        have hlen := takeNonQuote_length cs
        rcases htq : takeNonQuote cs with ⟨fst, snd⟩
        rw [htq] at h hlen
        cases fst with
        | nil => simp at h
        | cons b bs =>
            cases snd with
            | nil => simp at h
            | cons q rest =>
                by_cases hq2 : isQuoteChar q
                · simp only [hq2, if_true, Option.some_inj] at h
                  subst h
                  simp only [List.length_cons] at hlen ⊢
                  omega
                · simp [hq2] at h
      · simp [matchQuoted, hq] at h

/-- The `/g` scan of `className=` followed by a quoted class string
(the pattern `className=["'` ++ backquote ++ `]([^"'` ++ backquote ++
`]+)["'` ++ backquote ++ `]`). -/
def scanClassName (cs : List Char) : List String :=
  match cs with
  | [] => []
  | c :: rest =>
      if "className=".data.isPrefixOf (c :: rest) then
        match h : matchQuoted ((c :: rest).drop 10) with
        | some p => p.1 :: scanClassName p.2
        | none => scanClassName rest
      else scanClassName rest
termination_by cs.length
decreasing_by
  · have h1 := matchQuoted_length _ _ h
    simp only [List.length_drop, List.length_cons] at h1 ⊢
    omega
  · simp
  · simp

/-- The `\(\s*` followed by a quoted class string in the `cn(` pattern. -/
def matchCnParen : List Char → Option (String × List Char)
  | [] => none
  | c :: r2 => if c = '(' then matchQuoted (skipSpaces r2) else none

theorem matchCnParen_length (cs : List Char) (p : String × List Char)
    (h : matchCnParen cs = some p) : p.2.length < cs.length := by
  cases cs with
  | nil => simp [matchCnParen] at h
  | cons c r2 =>
      by_cases hpar : c = '('
      · simp only [matchCnParen, hpar, if_true] at h
        have h1 := matchQuoted_length _ _ h
        have h2 := skipSpaces_length r2
        simp only [List.length_cons]
        omega
      · simp [matchCnParen, hpar] at h

/-- One attempt of the `cn(` pattern
`cn\s*\(\s*["'` ++ backquote ++ `]([^"'` ++ backquote ++ `]+)["'` ++
backquote ++ `]` at the current position. -/
def matchCnAt (cs : List Char) : Option (String × List Char) :=
  if "cn".data.isPrefixOf cs then
    matchCnParen (skipSpaces (cs.drop 2))
  else none

theorem matchCnAt_length (cs : List Char) (p : String × List Char)
    (h : matchCnAt cs = some p) : p.2.length < cs.length := by
  unfold matchCnAt at h
  by_cases hp : "cn".data.isPrefixOf cs
  · rw [if_pos hp] at h
    have h1 := matchCnParen_length _ _ h
    have h2 := skipSpaces_length (cs.drop 2)
    have h3 : (cs.drop 2).length ≤ cs.length := by
      rw [List.length_drop]; omega
    omega
  · rw [if_neg hp] at h; simp at h

/-- The `/g` scan of the `cn(` pattern. -/
def scanCn (cs : List Char) : List String :=
  match cs with
  | [] => []
  | c :: rest =>
      match h : matchCnAt (c :: rest) with
      | some p => p.1 :: scanCn p.2
      | none => scanCn rest
termination_by cs.length
decreasing_by
  · exact matchCnAt_length _ _ h
  · simp

/-- Greedy run of non-space characters. -/
def takeWord : List Char → List Char × List Char
  | [] => ([], [])
  | c :: cs =>
      if jsSpace c then ([], c :: cs)
      else
        let r := takeWord cs
        (c :: r.1, r.2)

theorem takeWord_length (cs : List Char) :
    (takeWord cs).2.length ≤ cs.length := by
  induction cs with
  | nil => simp [takeWord]
  | cons c cs ih =>
      by_cases h : jsSpace c <;> simp [takeWord, h] <;> omega

/-- `split(/\s+/)` followed by dropping blank pieces (the source trims each
piece and skips empty ones): the maximal non-space runs, in order. -/
def classWords (cs : List Char) : List String :=
  match cs with
  | [] => []
  | c :: rest =>
      if jsSpace c then classWords rest
      else
        String.mk (c :: (takeWord rest).1) :: classWords (takeWord rest).2
termination_by cs.length
decreasing_by
  · simp
  · have h1 := takeWord_length cs
    simp only [List.length_cons]
    omega

/-- The variant-prefix alternation stripped from a class before lookup,
`^(hover:|focus:|active:|disabled:|sm:|md:|lg:|xl:|2xl:|dark:|group-hover:)+`. -/
def variantAlternatives : List String :=
  ["hover:", "focus:", "active:", "disabled:", "sm:", "md:", "lg:", "xl:",
   "2xl:", "dark:", "group-hover:"]

theorem variantAlternatives_nonempty :
    ∀ p ∈ variantAlternatives, 0 < p.data.length := by
  decide

/-- Repeatedly strip a leading variant prefix (the `+` quantifier). -/
def stripVariants (cs : List Char) : List Char :=
  match hf : variantAlternatives.find? (fun p => p.data.isPrefixOf cs) with
  | some p => stripVariants (cs.drop p.data.length)
  | none => cs
termination_by cs.length
decreasing_by
  have hmem := List.mem_of_find?_eq_some hf
  have hp : p.data.isPrefixOf cs := by
    have h2 := List.find?_some hf
    simpa using h2
  have hle : p.data.length ≤ cs.length :=
    (List.isPrefixOf_iff_prefix.mp hp).length_le
  have hpos : 0 < p.data.length := variantAlternatives_nonempty p hmem
  rw [List.length_drop]
  omega

/-- First alternation group of `isLikelyValidClass` (each element is
followed by `-` in the pattern). -/
def likelyGroup1 : List String :=
  ["bg", "text", "border", "ring", "shadow", "rounded", "p", "m", "w", "h",
   "min", "max", "flex", "grid", "gap", "space", "font", "leading",
   "tracking", "z", "opacity", "scale", "rotate", "translate", "skew",
   "origin", "cursor", "select", "resize", "scroll", "snap", "touch",
   "transition", "duration", "ease", "delay", "animate"]

/-- Second alternation group (each element followed by `-`). -/
def likelyGroup2 : List String :=
  ["items", "justify", "content", "place", "self", "order", "col", "row",
   "auto", "float", "clear", "isolate", "object", "overflow", "overscroll",
   "visible", "invisible", "static", "fixed", "absolute", "relative",
   "sticky", "inset", "top", "right", "bottom", "left"]

/-- Third group: anchored alternation of exact class names. -/
def likelyExact : List String :=
  ["block", "inline", "hidden", "sr-only", "not-sr-only", "antialiased",
   "subpixel-antialiased", "italic", "not-italic", "ordinal", "slashed-zero",
   "lining-nums", "oldstyle-nums", "proportional-nums", "tabular-nums",
   "diagonal-fractions", "stacked-fractions"]

/-- Fourth group: unanchored starts-with alternation. -/
def likelyStarts4 : List String :=
  ["underline", "overline", "line-through", "no-underline", "uppercase",
   "lowercase", "capitalize", "normal-case", "truncate", "break-",
   "whitespace-"]

/-- Fifth group: starts-with alternation. -/
def likelyStarts5 : List String :=
  ["list-", "decoration-", "outline-", "accent-", "caret-", "fill-",
   "stroke-"]

/-- Sixth group: starts-with alternation. -/
def likelyStarts6 : List String :=
  ["aspect-", "columns-", "break-", "box-"]

/-- Seventh group: starts-with alternation. -/
def likelyStarts7 : List String :=
  ["from-", "via-", "to-", "bg-gradient-"]

/-- `String.prototype.startsWith`. -/
def strStartsWith (s p : String) : Bool :=
  p.data.isPrefixOf s.data

/-- `isLikelyValidClass` from `validators.ts`: the heuristic pattern list. -/
def isLikelyValidClass (cls : String) : Bool :=
  likelyGroup1.any (fun a => strStartsWith cls (a ++ "-")) ||
  likelyGroup2.any (fun a => strStartsWith cls (a ++ "-")) ||
  likelyExact.contains cls ||
  likelyStarts4.any (fun a => strStartsWith cls a) ||
  likelyStarts5.any (fun a => strStartsWith cls a) ||
  likelyStarts6.any (fun a => strStartsWith cls a) ||
  strStartsWith cls "line-clamp-"

/-- `validateTailwind` from `validators.ts`: extract classes from
`className=` and `cn(` string literals, skip dynamic ones, strip variant
prefixes, and warn on classes neither in the valid set nor heuristically
valid. -/
def validateTailwind (code : String) (validClasses : List String) :
    List ValidatorNotice :=
  let fromClassName := scanClassName code.data
  let fromCn := scanCn code.data
  let extractedClasses :=
    jsSetOfList (((fromClassName ++ fromCn).map
      (fun s => classWords s.data)).flatten)
  extractedClasses.filterMap fun cls =>
    if jsIncludes cls "$\x7b" || jsIncludes cls "[" ||
        jsIncludes cls "var(" then none
    else
      let baseClass := String.mk (stripVariants cls.data)
      if validClasses.contains baseClass || isLikelyValidClass baseClass then
        none
      else
        some (noticeEntry .warning .tailwind
          ("Unknown Tailwind class: " ++ apos ++ cls ++ apos))

/-- `sizeKB.toFixed(1)` in tenths of a KB.  `sizeKB` is the byte count
divided by `1024`, which is exact in binary floating point, so rounding to
one decimal is integer rounding of `bytes * 10 / 1024`. -/
def kbTenths (bytes : Nat) : Nat :=
  (bytes * 10 + 512) / 1024

/-- Decimal rendering of `sizeKB.toFixed(1)`. -/
def kbString (bytes : Nat) : String :=
  toString (kbTenths bytes / 10) ++ "." ++ toString (kbTenths bytes % 10)

/-- `validateBundleSize` from `validators.ts`: `sizeKB > 100` and
`sizeKB > 50` for `sizeKB = byteLength/1024` are exactly
`bytes > 102400` and `bytes > 51200`. -/
def validateBundleSize (code : String) : List ValidatorNotice :=
  let bytes := code.utf8ByteSize
  if bytes > 102400 then
    [noticeEntry .error .bundle
      ("Very large component: " ++ kbString bytes ++ "KB")]
  else if bytes > 51200 then
    [noticeEntry .warning .bundle
      ("Large component: " ++ kbString bytes ++ "KB (consider splitting)")]
  else []

/-- The `if (tailwindClasses)` step of `runServerValidators`: the Tailwind
check runs only when a class set was provided. -/
def tailwindPart (code : String) : Option (List String) →
    List ValidatorNotice
  | some classes => validateTailwind code classes
  | none => []

/-- `runServerValidators` from `validators.ts`: the ordered pipeline —
ESLint, scope, optionally Tailwind, bundle size — concatenating each
check's notices.  The function is total: no exception can escape it (the
only throwing point, `linter.verify`, is handled inside `validateESLint`). -/
def runServerValidators (verify : String → Except String (List LintMessage))
    (code : String) (scopeIdentifiers : List String)
    (tailwindClasses : Option (List String)) : List ValidatorNotice :=
  validateESLint verify code ++
    validateScope code scopeIdentifiers ++
    tailwindPart code tailwindClasses ++
    validateBundleSize code

/-! ## `validation-status.ts`

The store keeps the latest `ValidationStatus` per canvas, the set of
canvases with a pending validation, and the per-canvas waiter arrays.

A waiter is a JavaScript function value; `Array.prototype.indexOf` compares
them by object identity.  `waitForValidation` creates, per call, a `resolve`
function (the promise executor argument) and a distinct `wrappedResolve`
closure; the two are distinguished here by constructor, sharing the call's
token. -/

/-- `ValidationStatus` from `validation-status.ts`. -/
structure ValidationStatus where
  notices : List ValidatorNotice
  errorCount : Nat
  warningCount : Nat
  infoCount : Nat
deriving DecidableEq, Repr

/-- A waiter callback, by object identity: `bare tok` is the `resolve` of
the `waitForValidation` call with token `tok`; `wrapped tok` is the
`wrappedResolve` closure of the same call.  They are different objects. -/
inductive WaiterFn
  | bare (tok : Nat)
  | wrapped (tok : Nat)
deriving DecidableEq, Repr

/-- The three module-level maps of `validation-status.ts`. -/
structure StatusStore where
  canvasStatus : List (String × ValidationStatus)
  pendingValidation : List String
  validationWaiters : List (String × List WaiterFn)
deriving DecidableEq, Repr

/-- The store at module load: all three maps empty. -/
def emptyStatusStore : StatusStore :=
  ⟨[], [], []⟩

/-- `markValidationPending` from `validation-status.ts`. -/
def markValidationPending (canvasId : String) (st : StatusStore) :
    StatusStore :=
  { st with pendingValidation := jsSetAdd st.pendingValidation canvasId }

/-- `isValidationPending` from `validation-status.ts`. -/
def isValidationPending (canvasId : String) (st : StatusStore) : Bool :=
  st.pendingValidation.contains canvasId

/-- `getValidationStatus` from `validation-status.ts`. -/
def getValidationStatus (canvasId : String) (st : StatusStore) :
    Option ValidationStatus :=
  jsMapGet st.canvasStatus canvasId

/-- `recordValidation` from `validation-status.ts`: store the counted
status, clear pending, call every waiter registered for the id (returned as
the woken list) and delete the waiter entry. -/
def recordValidation (canvasId : String) (notices : List ValidatorNotice)
    (st : StatusStore) : StatusStore × List WaiterFn :=
  let status : ValidationStatus :=
    { notices := notices
      errorCount := (notices.filter fun n => n.severity = .error).length
      warningCount := (notices.filter fun n => n.severity = .warning).length
      infoCount := (notices.filter fun n => n.severity = .info).length }
  let woken := (jsMapGet st.validationWaiters canvasId).getD []
  ({ canvasStatus := jsMapSet st.canvasStatus canvasId status
     pendingValidation := st.pendingValidation.filter (fun s => s ≠ canvasId)
     validationWaiters := jsMapDelete st.validationWaiters canvasId },
   woken)

/-- The synchronous part of `waitForValidation`: if the canvas is not
pending it returns immediately (`Bool` result `true`); otherwise it pushes
the call's `wrappedResolve` onto the canvas's waiter array (creating it via
`?? []`) and suspends (`false`), with the timeout armed. -/
def waitForRegister (canvasId : String) (tok : Nat) (st : StatusStore) :
    StatusStore × Bool :=
  if st.pendingValidation.contains canvasId then
    let waiters := (jsMapGet st.validationWaiters canvasId).getD []
    ({ st with
        validationWaiters :=
          jsMapSet st.validationWaiters canvasId
            (waiters ++ [WaiterFn.wrapped tok]) },
     false)
  else (st, true)

/-- The `setTimeout` callback of `waitForValidation`: look up the waiter
array, search it for `resolve` (the bare function — although the array
holds `wrappedResolve`), splice only when found (`idx >= 0`), delete the
entry when the array became empty, then resolve the caller's promise. -/
def waitForTimeoutFire (canvasId : String) (tok : Nat) (st : StatusStore) :
    StatusStore :=
  match jsMapGet st.validationWaiters canvasId with
  | none => st
  | some waiters =>
      let waiters' :=
        if waiters.contains (WaiterFn.bare tok) then
          waiters.eraseIdx (waiters.indexOf (WaiterFn.bare tok))
        else waiters
      if waiters'.isEmpty then
        { st with
            validationWaiters := jsMapDelete st.validationWaiters canvasId }
      else
        { st with
            validationWaiters :=
              jsMapSet st.validationWaiters canvasId waiters' }

/-! ## `websocket.ts`

Connections are keyed by canvas id; a connection handle is a number.  The
delivery of a server message is recorded as a `(connection, message)` pair.
State blobs (`Record<string, unknown>` round-tripped through
`JSON.stringify`/`JSON.parse`) are modelled as string-to-string objects. -/

/-- A live WebSocket connection handle. -/
abbrev Conn := Nat

/-- A parsed `_state.json` document. -/
abbrev StateBlob := List (String × String)

/-- One entry of the session list pushed to clients. -/
structure CanvasInfo where
  id : String
  name : String
  hasCode : Bool
deriving DecidableEq, Repr

/-- `ServerMessage` from `websocket.ts`, as a tagged union. -/
inductive ServerMsg
  | reload (code : String)
  | screenshotRequest
  | canvasesUpdated (canvases : List CanvasInfo)
  | stateUpdate (state : StateBlob)
  | componentsUpdate (components : List (String × String))
deriving DecidableEq, Repr

/-- The module-level `connections` map of `websocket.ts`. -/
abbrev ConnMap := List (String × List Conn)

/-- `addConnection` from `websocket.ts`: create the per-canvas set on
demand, then add the connection. -/
def addConnection (canvasId : String) (ws : Conn) (m : ConnMap) : ConnMap :=
  match jsMapGet m canvasId with
  | none => jsMapSet m canvasId (jsSetAdd [] ws)
  | some s => jsMapSet m canvasId (jsSetAdd s ws)

/-- `removeConnection` from `websocket.ts`: delete the connection from the
canvas's set if present, and drop the map entry once the set is empty. -/
def removeConnection (canvasId : String) (ws : Conn) (m : ConnMap) :
    ConnMap :=
  match jsMapGet m canvasId with
  | none => m
  | some s =>
      let s' := s.filter (fun c => c ≠ ws)
      if s'.length = 0 then jsMapDelete m canvasId
      else jsMapSet m canvasId s'

/-- `getConnectionCount` from `websocket.ts`. -/
def getConnectionCount (canvasId : String) (m : ConnMap) : Nat :=
  ((jsMapGet m canvasId).getD []).length

/-- `sendStateUpdate` from `websocket.ts`: deliver a `state-update` message
to every connection of the canvas (no-op when none are registered). -/
def sendStateUpdate (canvasId : String) (state : StateBlob) (m : ConnMap) :
    List (Conn × ServerMsg) :=
  match jsMapGet m canvasId with
  | none => []
  | some s => s.map (fun ws => (ws, ServerMsg.stateUpdate state))

/-- `sendReload` from `websocket.ts`: deliver a `reload` message with the
code payload to every connection of the canvas. -/
def sendReload (canvasId : String) (code : String) (m : ConnMap) :
    List (Conn × ServerMsg) :=
  match jsMapGet m canvasId with
  | none => []
  | some s => s.map (fun ws => (ws, ServerMsg.reload code))

/-- `handleSetState` from `websocket.ts`: write the canvas's `_state.json`
(the disk is the map canvas id ↦ parsed state file). -/
def handleSetState (canvasId : String) (state : StateBlob)
    (disk : List (String × StateBlob)) : List (String × StateBlob) :=
  jsMapSet disk canvasId state

/-! ## `canvas-manager.ts`

The module-level `canvases` map.  `new Date()` timestamps are naturals
supplied by the caller; `shouldOpenBrowser()` (the `BROWSER !== "none"`
environment test) is the parameter `browserEnvAllows`. -/

/-- `Canvas` from `canvas-manager.ts`. -/
structure Canvas where
  id : String
  path : String
  createdAt : Nat
  url : String
deriving DecidableEq, Repr

/-- The `canvases` map. -/
abbrev CanvasMap := List (String × Canvas)

/-- The public URL built by `openCanvas`. -/
def canvasUrl (port : Nat) (id : String) : String :=
  "http://127.0.0.1:" ++ toString port ++ "/canvas/" ++ id

/-- What one `openCanvas` call produces: the returned record, the updated
registry, and whether the `exec(open ...)` browser action ran
(`openBrowser && shouldOpenBrowser()`). -/
structure OpenResult where
  canvas : Canvas
  registry : CanvasMap
  browserOpened : Bool
deriving DecidableEq, Repr

/-- `openCanvas` from `canvas-manager.ts`: always constructs a fresh
record (fresh `createdAt`) and `canvases.set`s it, returning it. -/
def openCanvas (id path : String) (port : Nat) (openBrowser : Bool)
    (browserEnvAllows : Bool) (now : Nat) (reg : CanvasMap) : OpenResult :=
  let canvas : Canvas := ⟨id, path, now, canvasUrl port id⟩
  ⟨canvas, jsMapSet reg id canvas, openBrowser && browserEnvAllows⟩

/-- What `closeCanvas` produces: the `Map.delete` boolean and the updated
registry. -/
structure CloseResult where
  existed : Bool
  registry : CanvasMap
deriving DecidableEq, Repr

/-- `closeCanvas` from `canvas-manager.ts` (`canvases.delete(id)`). -/
def closeCanvas (id : String) (reg : CanvasMap) : CloseResult :=
  ⟨(jsMapGet reg id).isSome, jsMapDelete reg id⟩

/-- `hasCanvas` from `canvas-manager.ts`. -/
def hasCanvas (id : String) (reg : CanvasMap) : Bool :=
  (jsMapGet reg id).isSome

/-- `getCanvas` from `canvas-manager.ts`. -/
def getCanvas (id : String) (reg : CanvasMap) : Option Canvas :=
  jsMapGet reg id

/-! ## `watcher.ts`

The debounce map keyed by `kind-canvasId` strings, the initial-scan
resolution, and the debounced change handlers.  `stat`/`readFile` outcomes
are explicit parameters. -/

/-- `DEBOUNCE_MS` from `watcher.ts`. -/
def DEBOUNCE_MS : Nat := 100

/-- One `debounce(key, fn)` call at time `now`: `clearTimeout` any existing
timer for the key and arm a fresh one due at `now + DEBOUNCE_MS`.  The map
is key ↦ deadline. -/
def debounceSet (timers : List (String × Nat)) (key : String) (now : Nat) :
    List (String × Nat) :=
  jsMapSet timers key (now + DEBOUNCE_MS)

/-- The deadlines at which a single key's timer actually fires, given the
increasing times of the raw events for that key: each event cancels a timer
armed strictly less than `delay` before it; the last event's timer always
fires. -/
def fireTimes (delay : Nat) : List Nat → List Nat
  | [] => []
  | [t] => [t + delay]
  | t1 :: t2 :: rest =>
      if t2 < t1 + delay then fireTimes delay (t2 :: rest)
      else (t1 + delay) :: fireTimes delay (t2 :: rest)

/-- `prependComponents` from `component-loader.ts` (components are loaded
dynamically at runtime, so the code payload is returned unchanged). -/
def prependComponents (appCode : String) : String :=
  appCode

/-- The observable outcome of one `handleAppJsxChange` run: the updated
validation store, whether `clearLog` ran, the notices appended to the log,
and the reload deliveries. -/
structure JsxChangeOutcome where
  store : StatusStore
  logCleared : Bool
  appendedNotices : List ValidatorNotice
  reloads : List (Conn × ServerMsg)
deriving DecidableEq, Repr

/-- `handleAppJsxChange` from `watcher.ts`.  `readResult` is the outcome of
`readCanvasCode` (`none` for a missing canvas or unreadable file); the
source's `if (!code) return` also covers an empty string (falsy).  On
success: clear the log, run the validators (no Tailwind class set is passed
at this call site), record the result, append the notices when non-empty,
and send the reload to every connection of the canvas. -/
def handleAppJsxChange (verify : String → Except String (List LintMessage))
    (scopeIdentifiers : List String) (readResult : Option String)
    (canvasId : String) (st : StatusStore) (conns : ConnMap) :
    JsxChangeOutcome :=
  match readResult with
  | none => ⟨st, false, [], []⟩
  | some code =>
      if code = "" then ⟨st, false, [], []⟩
      else
        let notices := runServerValidators verify code scopeIdentifiers none
        let r := recordValidation canvasId notices st
        ⟨r.1, true,
         if notices.length > 0 then notices else [],
         sendReload canvasId (prependComponents code) conns⟩

/-- `handleStateChange` from `watcher.ts`: read and parse the canvas's
`_state.json` (the disk map) and broadcast it; on a read/parse failure the
error is logged and nothing is sent. -/
def handleStateChange (canvasId : String)
    (disk : List (String × StateBlob)) (conns : ConnMap) :
    List (Conn × ServerMsg) :=
  match jsMapGet disk canvasId with
  | some state => sendStateUpdate canvasId state conns
  | none => []

/-- The server's end-to-end reaction to an inbound `set-state` client
message: the `websocket.message` router calls `handleSetState`, which
writes `_state.json`; chokidar reports the change, the debounced
`state-<id>` timer fires, and `handleStateChange` reads the file back and
broadcasts it. -/
def setStateRoundTrip (canvasId : String) (state : StateBlob)
    (disk : List (String × StateBlob)) (conns : ConnMap) :
    List (String × StateBlob) × List (Conn × ServerMsg) :=
  let disk' := handleSetState canvasId state disk
  (disk', handleStateChange canvasId disk' conns)

/-- One element of the watcher's `initialCanvasPaths` collection. -/
structure InitialCanvas where
  canvasId : String
  canvasPath : String
  filePath : String
deriving DecidableEq, Repr

/-- An element of `canvasesWithMtime` in `processInitialCanvases`. -/
structure CanvasWithMtime where
  canvasId : String
  canvasPath : String
  mtime : Nat
deriving DecidableEq, Repr

/-- The `stat` loop of `processInitialCanvases`: canvases whose entry file
can still be `stat`ed keep their modification time; the others are
skipped. -/
def collectMtimes (mtimeOf : String → Option Nat) :
    List InitialCanvas → List CanvasWithMtime :=
  List.filterMap fun c =>
    (mtimeOf c.filePath).map fun m => ⟨c.canvasId, c.canvasPath, m⟩

/-- Stable insertion into a list sorted by `mtime` descending (the
behaviour of `Array.prototype.sort` with comparator `b.mtime - a.mtime`,
which is stable). -/
def insertByMtimeDesc (x : CanvasWithMtime) :
    List CanvasWithMtime → List CanvasWithMtime
  | [] => [x]
  | y :: ys =>
      if y.mtime ≤ x.mtime then x :: y :: ys else y :: insertByMtimeDesc x ys

/-- `canvasesWithMtime.sort((a, b) => b.mtime - a.mtime)`. -/
def sortByMtimeDesc : List CanvasWithMtime → List CanvasWithMtime
  | [] => []
  | x :: xs => insertByMtimeDesc x (sortByMtimeDesc xs)

/-- The outcome of `processInitialCanvases`: the updated registry and the
`openCanvas` calls in order, each as (canvas id, whether the browser-open
action ran). -/
structure ProcessResult where
  registry : CanvasMap
  actions : List (String × Bool)
deriving DecidableEq, Repr

/-- The body of the "register remaining canvases" loop of
`processInitialCanvases`: open one canvas with `openBrowser: false`,
threading the registry and appending the action. -/
def openRestStep (port : Nat) (browserEnvAllows : Bool) (now : Nat)
    (acc : CanvasMap × List (String × Bool)) (c : CanvasWithMtime) :
    CanvasMap × List (String × Bool) :=
  let r := openCanvas c.canvasId c.canvasPath port false browserEnvAllows
    now acc.1
  (r.registry, acc.2 ++ [(c.canvasId, r.browserOpened)])

/-- `processInitialCanvases` from `watcher.ts`: `stat` every collected
canvas (skipping failures), return early if none survive, sort by
modification time descending, open the most recent with
`openBrowser: true` and register the rest with `openBrowser: false`. -/
def processInitialCanvases (mtimeOf : String → Option Nat) (port : Nat)
    (browserEnvAllows : Bool) (now : Nat) (collected : List InitialCanvas)
    (reg : CanvasMap) : ProcessResult :=
  let canvasesWithMtime := collectMtimes mtimeOf collected
  match sortByMtimeDesc canvasesWithMtime with
  | [] => ⟨reg, []⟩
  | mostRecent :: rest =>
      let r0 := openCanvas mostRecent.canvasId mostRecent.canvasPath port
        true browserEnvAllows now reg
      let step := rest.foldl (openRestStep port browserEnvAllows now)
        (r0.registry, [(mostRecent.canvasId, r0.browserOpened)])
      ⟨step.1, step.2⟩

/-! ## `src/server/index.ts`: the WebSocket `open` handler -/

/-- JavaScript truthiness of a nullable string (`null`, `undefined` and
`""` are falsy). -/
def jsTruthyStr : Option String → Bool
  | none => false
  | some s => !(s == "")

/-- The `let code = await readCanvasCode(id); if (!code) code = await
readCanvasCodeDirect(id)` fallback. -/
def effectiveCode (fromManager direct : Option String) : Option String :=
  if jsTruthyStr fromManager then fromManager else direct

/-- The messages pushed to a freshly connected client by `websocket.open`,
in send order: the compiled components when any exist, then the current
code payload when one exists, then the current state blob when one exists,
then the current session list (always).  The handler reads only the current
stores, so the sequence does not depend on when earlier pushes happened. -/
def wsOpenMessages (components : List (String × String))
    (codeFromManager codeDirect : Option String) (state : Option StateBlob)
    (artifacts : List CanvasInfo) : List ServerMsg :=
  (if components.length > 0 then [ServerMsg.componentsUpdate components]
   else []) ++
  (match effectiveCode codeFromManager codeDirect with
   | some code =>
       if code = "" then [] else [ServerMsg.reload code]
   | none => []) ++
  (match state with
   | some s => [ServerMsg.stateUpdate s]
   | none => []) ++
  [ServerMsg.canvasesUpdated artifacts]

/-! ## Supporting lemmas -/

theorem validateScope_category (code : String) (ids : List String) :
    ∀ n ∈ validateScope code ids, n.category = NoticeCategory.scope := by
  intro n hn
  simp only [validateScope, List.mem_filterMap] at hn
  obtain ⟨a, -, ha⟩ := hn
  split_ifs at ha
  simp only [Option.some_inj] at ha
  rw [← ha]
  rfl

theorem validateTailwind_category (code : String) (classes : List String) :
    ∀ n ∈ validateTailwind code classes,
      n.category = NoticeCategory.tailwind := by
  intro n hn
  simp only [validateTailwind, List.mem_filterMap] at hn
  obtain ⟨a, -, ha⟩ := hn
  split_ifs at ha
  simp only [Option.some_inj] at ha
  rw [← ha]
  rfl

theorem validateBundleSize_category (code : String) :
    ∀ n ∈ validateBundleSize code, n.category = NoticeCategory.bundle := by
  intro n hn
  simp only [validateBundleSize] at hn
  split_ifs at hn <;> simp only [List.mem_singleton, List.not_mem_nil] at hn
  · rw [hn]
    rfl
  · rw [hn]
    rfl

theorem tailwindPart_category (code : String)
    (tailwindClasses : Option (List String)) :
    ∀ n ∈ tailwindPart code tailwindClasses,
      n.category = NoticeCategory.tailwind := by
  cases tailwindClasses with
  | none => simp [tailwindPart]
  | some classes => exact validateTailwind_category code classes

/-! ## C1: validator isolation -/

/-- C1: for every code payload and check configuration, an exception thrown
by the throwing point of a check (the `linter.verify` call inside
`validateESLint`, the one check that can throw) is caught and converted into
a single synthetic severity-`error` notice tagged with that check's
category, the other checks' notices all appear after it in the merged
result, and the pipeline itself is total, so no exception escapes its
boundary. -/
theorem validator_pipeline_isolation
    (verify : String → Except String (List LintMessage)) (code : String)
    (scopeIdentifiers : List String) (tailwindClasses : Option (List String))
    (err : String) (h : verify code = Except.error err) :
    runServerValidators verify code scopeIdentifiers tailwindClasses =
      noticeEntry .error .eslint ("ESLint failed: " ++ err) ::
        (validateScope code scopeIdentifiers ++
          tailwindPart code tailwindClasses ++
          validateBundleSize code) ∧
    ((runServerValidators verify code scopeIdentifiers
        tailwindClasses).filter
      (fun n => n.category = NoticeCategory.eslint)).length = 1 := by
  have heq : runServerValidators verify code scopeIdentifiers
      tailwindClasses =
      noticeEntry .error .eslint ("ESLint failed: " ++ err) ::
        (validateScope code scopeIdentifiers ++
          tailwindPart code tailwindClasses ++
          validateBundleSize code) := by
    simp [runServerValidators, validateESLint, h]
  refine ⟨heq, ?_⟩
  rw [heq]
  have hscope : (validateScope code scopeIdentifiers).filter
      (fun n => n.category = NoticeCategory.eslint) = [] := by
    rw [List.filter_eq_nil]
    intro a ha
    have := validateScope_category code scopeIdentifiers a ha
    simp [this]
  have htw : (tailwindPart code tailwindClasses).filter
      (fun n => n.category = NoticeCategory.eslint) = [] := by
    rw [List.filter_eq_nil]
    intro a ha
    have := tailwindPart_category code tailwindClasses a ha
    simp [this]
  have hbundle : (validateBundleSize code).filter
      (fun n => n.category = NoticeCategory.eslint) = [] := by
    rw [List.filter_eq_nil]
    intro a ha
    have := validateBundleSize_category code a ha
    simp [this]
  simp [List.filter_append, hscope, htw, hbundle, noticeEntry]

/-- Witness for C1 at a concrete always-throwing linter and payload. -/
theorem validator_pipeline_isolation_witness :
    runServerValidators (fun _ => Except.error "boom") "<Zap/>" [] none =
      noticeEntry .error .eslint ("ESLint failed: " ++ "boom") ::
        (validateScope "<Zap/>" [] ++
          tailwindPart "<Zap/>" none ++
          validateBundleSize "<Zap/>") ∧
    ((runServerValidators (fun _ => Except.error "boom") "<Zap/>" []
        none).filter
      (fun n => n.category = NoticeCategory.eslint)).length = 1 :=
  validator_pipeline_isolation (fun _ => Except.error "boom") "<Zap/>" []
    none "boom" rfl

/-! ## C3: `recordValidation` -/

/-- C3: for every session id and notice list, `recordValidation` stores a
status whose error/warning/info counts are the numbers of notices of the
respective severities, clears the pending flag for the id, and wakes — in
its single call — exactly the waiters registered for the id, emptying the
id's waiter entry. -/
theorem record_validation_contract (canvasId : String)
    (notices : List ValidatorNotice) (st : StatusStore) :
    getValidationStatus canvasId (recordValidation canvasId notices st).1 =
      some
        ⟨notices,
         notices.countP (fun n => n.severity = NoticeSeverity.error),
         notices.countP (fun n => n.severity = NoticeSeverity.warning),
         notices.countP (fun n => n.severity = NoticeSeverity.info)⟩ ∧
    isValidationPending canvasId (recordValidation canvasId notices st).1 =
      false ∧
    (recordValidation canvasId notices st).2 =
      (jsMapGet st.validationWaiters canvasId).getD [] ∧
    jsMapGet (recordValidation canvasId notices st).1.validationWaiters
      canvasId = none := by
  refine ⟨?_, ?_, rfl, ?_⟩
  · simp only [recordValidation, getValidationStatus, jsMapGet_set_self,
      Option.some_inj]
    congr 1 <;> rw [List.countP_eq_length_filter]
  · simp only [recordValidation, isValidationPending]
    simp
  · simp only [recordValidation]
    exact jsMapGet_delete_self _ _

/-! ## C7: the `waitForValidation` timeout path -/

/-- C7: the timeout outcome itself is as specified — `waitForValidation`
on a pending id suspends, the timeout resolves it while the id stays
pending — but the timed-out caller's waiter registration is NOT removed:
the timeout handler searches the waiter array for `resolve` with
`indexOf` while the array holds the distinct `wrappedResolve` closure, so
`indexOf` yields `-1`, nothing is spliced, and the registration leaks
(contradicting the removal the handler's own splice logic was written to
perform).  Evaluated at a concrete pending session. -/
theorem wait_for_timeout_leaves_waiter_registered :
    (waitForRegister "demo" 0
      (markValidationPending "demo" emptyStatusStore)).2 = false ∧
    isValidationPending "demo"
      (waitForTimeoutFire "demo" 0
        (waitForRegister "demo" 0
          (markValidationPending "demo" emptyStatusStore)).1) = true ∧
    jsMapGet
      (waitForTimeoutFire "demo" 0
        (waitForRegister "demo" 0
          (markValidationPending "demo" emptyStatusStore)).1).validationWaiters
      "demo" = some [WaiterFn.wrapped 0] := by
  decide

/-! ## C10: the connection-registry invariant -/

/-- The invariant: the `connections` map never holds an entry with an empty
connection set. -/
def connRegistryWF (m : ConnMap) : Prop :=
  ∀ p ∈ m, p.2 ≠ []

instance (m : ConnMap) : Decidable (connRegistryWF m) :=
  inferInstanceAs (Decidable (∀ p ∈ m, p.2 ≠ []))

theorem jsSetAdd_ne_nil {α : Type} [DecidableEq α] (s : List α) (x : α) :
    jsSetAdd s x ≠ [] := by
  unfold jsSetAdd
  split_ifs with h
  · intro he
    subst he
    simp at h
  · simp

theorem connRegistryWF_jsMapSet (m : ConnMap) (k : String) (v : List Conn)
    (h : connRegistryWF m) (hv : v ≠ []) :
    connRegistryWF (jsMapSet m k v) := by
  intro p hp
  rcases mem_jsMapSet m k v p hp with h' | h'
  · exact h p h'
  · rw [h']
    exact hv

theorem connRegistryWF_jsMapDelete (m : ConnMap) (k : String)
    (h : connRegistryWF m) : connRegistryWF (jsMapDelete m k) := by
  intro p hp
  exact h p (List.mem_of_mem_filter hp)

/-- C10: the registry never maps a session id to an empty connection set —
`addConnection` creates the set only together with its first element, and
`removeConnection` deletes the entry once the last connection is removed —
and `removeConnection` for an unknown session or for a connection not in
the session's set leaves the registry unchanged. -/
theorem connection_registry_invariant (m : ConnMap) (canvasId : String)
    (ws : Conn) (h : connRegistryWF m) :
    connRegistryWF (addConnection canvasId ws m) ∧
    connRegistryWF (removeConnection canvasId ws m) ∧
    (jsMapGet m canvasId = none → removeConnection canvasId ws m = m) ∧
    (∀ s, jsMapGet m canvasId = some s → ws ∉ s →
      removeConnection canvasId ws m = m) := by
  refine ⟨?_, ?_, ?_, ?_⟩
  · unfold addConnection
    cases hget : jsMapGet m canvasId with
    | none => exact connRegistryWF_jsMapSet m _ _ h (jsSetAdd_ne_nil _ _)
    | some s => exact connRegistryWF_jsMapSet m _ _ h (jsSetAdd_ne_nil _ _)
  · unfold removeConnection
    cases hget : jsMapGet m canvasId with
    | none => exact h
    | some s =>
        by_cases hlen : (s.filter (fun c => c ≠ ws)).length = 0
        · simp only [hlen, if_pos]
          exact connRegistryWF_jsMapDelete m _ h
        · simp only [hlen, if_neg, if_false]
          refine connRegistryWF_jsMapSet m _ _ h ?_
          intro he
          rw [he] at hlen
          simp at hlen
  · intro hget
    unfold removeConnection
    rw [hget]
  · intro s hget hws
    have hfil : s.filter (fun c => c ≠ ws) = s := by
      rw [List.filter_eq_self]
      intro a ha
      simp only [ne_eq, decide_not, Bool.not_eq_eq_eq_not, Bool.not_true,
        decide_eq_false_iff_not]
      intro he
      rw [he] at ha
      exact hws ha
    have hne : s ≠ [] := h (canvasId, s) (jsMapGet_mem m canvasId s hget)
    have hlen : ¬s.length = 0 := by
      intro h0
      exact hne (List.length_eq_zero.mp h0)
    simp only [removeConnection, hget, hfil, hlen, if_neg, if_false]
    exact jsMapSet_same m canvasId s hget

/-- Witness for C10 at a concrete registry. -/
theorem connection_registry_invariant_witness :
    connRegistryWF (addConnection "a" 2 [("a", [1])]) ∧
    connRegistryWF (removeConnection "a" 2 [("a", [1])]) ∧
    (jsMapGet ([("a", [1])] : ConnMap) "a" = none →
      removeConnection "a" 2 [("a", [1])] = [("a", [1])]) ∧
    (∀ s, jsMapGet ([("a", [1])] : ConnMap) "a" = some s → 2 ∉ s →
      removeConnection "a" 2 [("a", [1])] = [("a", [1])]) :=
  connection_registry_invariant [("a", [1])] "a" 2 (by decide)

/-! ## C2: inbound `set-state` messages -/

/-- C2: the server's handling of an inbound `set-state` message persists
the blob to the session's `_state.json` and re-broadcasts a `state-update`
carrying it to every live connection registered for the session — the
sender (`hs`) included, because `sendStateUpdate` iterates the whole set.
(The broadcast leg runs when the watcher's debounced `_state.json` change
event fires `handleStateChange`, which reads the freshly written file.) -/
theorem set_state_persists_and_broadcasts (canvasId : String)
    (state : StateBlob) (disk : List (String × StateBlob)) (conns : ConnMap)
    (sender : Conn) (hs : sender ∈ (jsMapGet conns canvasId).getD []) :
    jsMapGet (setStateRoundTrip canvasId state disk conns).1 canvasId =
      some state ∧
    (setStateRoundTrip canvasId state disk conns).2 =
      ((jsMapGet conns canvasId).getD []).map
        (fun ws => (ws, ServerMsg.stateUpdate state)) ∧
    (sender, ServerMsg.stateUpdate state) ∈
      (setStateRoundTrip canvasId state disk conns).2 := by
  have hdisk : jsMapGet (handleSetState canvasId state disk) canvasId =
      some state := jsMapGet_set_self disk canvasId state
  have hsend : (setStateRoundTrip canvasId state disk conns).2 =
      ((jsMapGet conns canvasId).getD []).map
        (fun ws => (ws, ServerMsg.stateUpdate state)) := by
    simp only [setStateRoundTrip, handleStateChange, hdisk, sendStateUpdate]
    cases jsMapGet conns canvasId with
    | none => simp
    | some s => simp
  refine ⟨hdisk, hsend, ?_⟩
  rw [hsend]
  exact List.mem_map_of_mem _ hs

/-- Witness for C2: one session with two connections, the writing tab
among them. -/
theorem set_state_persists_and_broadcasts_witness :
    jsMapGet (setStateRoundTrip "a" [("k", "v")] [] [("a", [7, 8])]).1 "a" =
      some [("k", "v")] ∧
    (setStateRoundTrip "a" [("k", "v")] [] [("a", [7, 8])]).2 =
      ((jsMapGet ([("a", [7, 8])] : ConnMap) "a").getD []).map
        (fun ws => (ws, ServerMsg.stateUpdate [("k", "v")])) ∧
    ((7 : Conn), ServerMsg.stateUpdate [("k", "v")]) ∈
      (setStateRoundTrip "a" [("k", "v")] [] [("a", [7, 8])]).2 :=
  set_state_persists_and_broadcasts "a" [("k", "v")] [] [("a", [7, 8])] 7
    (by decide)

/-! ## C9: the entry-file change handler on a failed read -/

/-- C9: when the debounced entry-file handler cannot read the session's
code (`readCanvasCode` yields nothing — or the falsy empty payload), it
returns without clearing the log, without recording a validation result,
and without broadcasting a reload; a pending flag set earlier stays set,
and a `waitForValidation` for the session cannot return immediately (its
registration step suspends), so with no `recordValidation` arriving it can
only return via its timeout. -/
theorem jsx_change_read_failure
    (verify : String → Except String (List LintMessage))
    (scopeIdentifiers : List String) (readResult : Option String)
    (canvasId : String) (st : StatusStore) (conns : ConnMap) (tok : Nat)
    (h : readResult = none ∨ readResult = some "") :
    (handleAppJsxChange verify scopeIdentifiers readResult canvasId st
        conns).store = st ∧
    (handleAppJsxChange verify scopeIdentifiers readResult canvasId st
        conns).logCleared = false ∧
    (handleAppJsxChange verify scopeIdentifiers readResult canvasId st
        conns).appendedNotices = [] ∧
    (handleAppJsxChange verify scopeIdentifiers readResult canvasId st
        conns).reloads = [] ∧
    (isValidationPending canvasId st = true →
      isValidationPending canvasId
        (handleAppJsxChange verify scopeIdentifiers readResult canvasId st
          conns).store = true ∧
      (waitForRegister canvasId tok
        (handleAppJsxChange verify scopeIdentifiers readResult canvasId st
          conns).store).2 = false) := by
  have hid : handleAppJsxChange verify scopeIdentifiers readResult canvasId
      st conns = ⟨st, false, [], []⟩ := by
    rcases h with h | h <;> rw [h] <;> simp [handleAppJsxChange]
  rw [hid]
  refine ⟨rfl, rfl, rfl, rfl, ?_⟩
  intro hpend
  refine ⟨hpend, ?_⟩
  unfold waitForRegister
  unfold isValidationPending at hpend
  simp only [hpend, if_pos]

/-- Witness for C9: a pending session whose entry file has vanished. -/
theorem jsx_change_read_failure_witness :
    (handleAppJsxChange (fun _ => Except.ok []) [] none "demo"
        (markValidationPending "demo" emptyStatusStore) []).store =
      markValidationPending "demo" emptyStatusStore ∧
    (handleAppJsxChange (fun _ => Except.ok []) [] none "demo"
        (markValidationPending "demo" emptyStatusStore) []).logCleared =
      false ∧
    (handleAppJsxChange (fun _ => Except.ok []) [] none "demo"
        (markValidationPending "demo" emptyStatusStore) []).appendedNotices =
      [] ∧
    (handleAppJsxChange (fun _ => Except.ok []) [] none "demo"
        (markValidationPending "demo" emptyStatusStore) []).reloads = [] ∧
    (isValidationPending "demo"
        (markValidationPending "demo" emptyStatusStore) = true →
      isValidationPending "demo"
        (handleAppJsxChange (fun _ => Except.ok []) [] none "demo"
          (markValidationPending "demo" emptyStatusStore) []).store = true ∧
      (waitForRegister "demo" 0
        (handleAppJsxChange (fun _ => Except.ok []) [] none "demo"
          (markValidationPending "demo" emptyStatusStore) []).store).2 =
        false) :=
  jsx_change_read_failure (fun _ => Except.ok []) [] none "demo"
    (markValidationPending "demo" emptyStatusStore) [] 0 (Or.inl rfl)

/-! ## C4: the connect-time resync push -/

/-- C4: on every new client connection, `websocket.open` pushes — in this
relative order — (a) the current code payload when one exists (manager
read, falling back to the direct file read), (b) the current state blob
when one exists, and (c) the current session list, always and last.  The
handler reads only the current stores, so this holds regardless of when
earlier pushes happened. -/
theorem connect_resync_order (components : List (String × String))
    (codeFromManager codeDirect : Option String) (state : Option StateBlob)
    (artifacts : List CanvasInfo) :
    (∀ c, effectiveCode codeFromManager codeDirect = some c → c ≠ "" →
      ∀ s, state = some s →
        List.Sublist
          [ServerMsg.reload c, ServerMsg.stateUpdate s,
           ServerMsg.canvasesUpdated artifacts]
          (wsOpenMessages components codeFromManager codeDirect state
            artifacts)) ∧
    (∀ c, effectiveCode codeFromManager codeDirect = some c → c ≠ "" →
      ServerMsg.reload c ∈
        wsOpenMessages components codeFromManager codeDirect state
          artifacts) ∧
    (∀ s, state = some s →
      ServerMsg.stateUpdate s ∈
        wsOpenMessages components codeFromManager codeDirect state
          artifacts) ∧
    (wsOpenMessages components codeFromManager codeDirect state
        artifacts).getLast? =
      some (ServerMsg.canvasesUpdated artifacts) := by
  refine ⟨?_, ?_, ?_, ?_⟩
  · intro c hc hc' s hst
    simp only [wsOpenMessages, hc, hst, if_neg hc']
    rw [List.append_assoc, List.append_assoc]
    exact List.sublist_append_right _ _
  · intro c hc hc'
    simp only [wsOpenMessages, hc, if_neg hc']
    simp
  · intro s hst
    simp only [wsOpenMessages, hst]
    simp
  · exact List.getLast?_concat _

/-- Witness for C4: a session with code, state, and a session list. -/
theorem connect_resync_order_witness :
    List.Sublist
      [ServerMsg.reload "code", ServerMsg.stateUpdate [("k", "v")],
       ServerMsg.canvasesUpdated [⟨"a", "a", true⟩]]
      (wsOpenMessages [] (some "code") none (some [("k", "v")])
        [⟨"a", "a", true⟩]) ∧
    (wsOpenMessages [] (some "code") none (some [("k", "v")])
        [⟨"a", "a", true⟩]).getLast? =
      some (ServerMsg.canvasesUpdated [⟨"a", "a", true⟩]) := by
  have h := connect_resync_order [] (some "code") none
    (some [("k", "v")]) [⟨"a", "a", true⟩]
  exact ⟨h.1 "code" rfl (by decide) [("k", "v")] rfl, h.2.2.2⟩

/-! ## C6: `openCanvas` is not idempotent (it overwrites) -/

/-- C6 counterexample: a second `openCanvas` call for the same id does not
return the session record already held — it constructs and stores a fresh
one with a new creation timestamp, changing the registry's record. -/
theorem open_canvas_second_call_changes_record :
    (openCanvas "demo" "/tmp/demo" 80 true true 1
        (openCanvas "demo" "/tmp/demo" 80 true true 0 []).registry).canvas.createdAt
      = 1 ∧
    some (openCanvas "demo" "/tmp/demo" 80 true true 1
        (openCanvas "demo" "/tmp/demo" 80 true true 0 []).registry).canvas ≠
      jsMapGet (openCanvas "demo" "/tmp/demo" 80 true true 0 []).registry
        "demo" ∧
    jsMapGet
        (openCanvas "demo" "/tmp/demo" 80 true true 1
          (openCanvas "demo" "/tmp/demo" 80 true true 0
            []).registry).registry "demo" ≠
      jsMapGet (openCanvas "demo" "/tmp/demo" 80 true true 0 []).registry
        "demo" := by
  decide

/-- C6 amended: `openCanvas(id, path)` always constructs a fresh session
record carrying the call-time creation timestamp, stores it — overwriting
any record already held for that id and leaving other ids untouched — and
returns it; `closeCanvas(id)` returns `true` exactly when a session with
that id existed, removing it. -/
theorem open_canvas_overwrites_and_close (id path : String) (port : Nat)
    (openBrowser browserEnvAllows : Bool) (now : Nat) (reg : CanvasMap) :
    (openCanvas id path port openBrowser browserEnvAllows now reg).canvas =
      ⟨id, path, now, canvasUrl port id⟩ ∧
    jsMapGet
        (openCanvas id path port openBrowser browserEnvAllows now
          reg).registry id =
      some
        (openCanvas id path port openBrowser browserEnvAllows now
          reg).canvas ∧
    (∀ other, other ≠ id →
      jsMapGet
          (openCanvas id path port openBrowser browserEnvAllows now
            reg).registry other =
        jsMapGet reg other) ∧
    (closeCanvas id reg).existed = (jsMapGet reg id).isSome ∧
    jsMapGet (closeCanvas id reg).registry id = none := by
  refine ⟨rfl, jsMapGet_set_self _ _ _, ?_, rfl, jsMapGet_delete_self _ _⟩
  intro other hother
  exact jsMapGet_set_ne _ _ _ _ hother

/-- Witness for the amended C6 at a concrete registry. -/
theorem open_canvas_overwrites_and_close_witness :
    (openCanvas "a" "/p" 80 true true 5 [("b", ⟨"b", "/q", 0, "u"⟩)]).canvas =
      ⟨"a", "/p", 5, canvasUrl 80 "a"⟩ ∧
    jsMapGet
        (openCanvas "a" "/p" 80 true true 5
          [("b", ⟨"b", "/q", 0, "u"⟩)]).registry "a" =
      some
        (openCanvas "a" "/p" 80 true true 5
          [("b", ⟨"b", "/q", 0, "u"⟩)]).canvas ∧
    (∀ other, other ≠ "a" →
      jsMapGet
          (openCanvas "a" "/p" 80 true true 5
            [("b", ⟨"b", "/q", 0, "u"⟩)]).registry other =
        jsMapGet ([("b", ⟨"b", "/q", 0, "u"⟩)] : CanvasMap) other) ∧
    (closeCanvas "a" [("b", ⟨"b", "/q", 0, "u"⟩)]).existed =
      (jsMapGet ([("b", ⟨"b", "/q", 0, "u"⟩)] : CanvasMap) "a").isSome ∧
    jsMapGet (closeCanvas "a" [("b", ⟨"b", "/q", 0, "u"⟩)]).registry "a" =
      none :=
  open_canvas_overwrites_and_close "a" "/p" 80 true true 5
    [("b", ⟨"b", "/q", 0, "u"⟩)]

/-! ## C8: debounce coalescing -/

theorem fireTimes_rapid (delay : Nat) (times : List Nat) (hne : times ≠ [])
    (h : times.Chain' (fun a b => b < a + delay)) :
    fireTimes delay times = [times.getLast hne + delay] := by
  induction times with
  | nil => exact absurd rfl hne
  | cons t rest ih =>
      cases rest with
      | nil => simp [fireTimes]
      | cons t2 r2 =>
          rw [List.chain'_cons] at h
          have hne2 : t2 :: r2 ≠ [] := List.cons_ne_nil t2 r2
          simp only [fireTimes, if_pos h.1]
          rw [ih hne2 h.2, List.getLast_cons hne2]

/-- C8: the watcher keeps one debounce timer per `(session, role)` key —
arming a key's timer replaces that key's previous deadline and leaves every
other key's timer untouched — and a burst of `N ≥ 1` raw events for one
key, each arriving within the quiet period of the previous one, makes the
timer fire exactly once, at the last event's deadline; that single fire
runs `handleAppJsxChange` once, producing exactly one validation
`recordValidation` and one reload broadcast. -/
theorem debounce_coalescing
    (timers : List (String × Nat)) (key otherKey : String) (now : Nat)
    (times : List Nat)
    (verify : String → Except String (List LintMessage))
    (scopeIdentifiers : List String) (code : String) (canvasId : String)
    (st : StatusStore) (conns : ConnMap)
    (hne : times ≠ [])
    (hrapid : times.Chain' (fun a b => a < b ∧ b < a + DEBOUNCE_MS))
    (hcode : code ≠ "") :
    jsMapGet (debounceSet timers key now) key = some (now + DEBOUNCE_MS) ∧
    (otherKey ≠ key →
      jsMapGet (debounceSet timers key now) otherKey =
        jsMapGet timers otherKey) ∧
    fireTimes DEBOUNCE_MS times = [times.getLast hne + DEBOUNCE_MS] ∧
    ((fireTimes DEBOUNCE_MS times).map
        (fun _ => handleAppJsxChange verify scopeIdentifiers (some code)
          canvasId st conns)).length = 1 ∧
    (∀ r ∈ (fireTimes DEBOUNCE_MS times).map
        (fun _ => handleAppJsxChange verify scopeIdentifiers (some code)
          canvasId st conns),
      r.store = (recordValidation canvasId
        (runServerValidators verify code scopeIdentifiers none) st).1 ∧
      r.reloads = sendReload canvasId (prependComponents code) conns) := by
  have hfire : fireTimes DEBOUNCE_MS times =
      [times.getLast hne + DEBOUNCE_MS] :=
    fireTimes_rapid DEBOUNCE_MS times hne
      (hrapid.imp (fun a b hab => hab.2))
  refine ⟨jsMapGet_set_self _ _ _, ?_, hfire, ?_, ?_⟩
  · intro hother
    exact jsMapGet_set_ne _ _ _ _ hother
  · rw [hfire]
    rfl
  · rw [hfire]
    intro r hr
    simp only [List.map_cons, List.map_nil, List.mem_singleton] at hr
    rw [hr]
    constructor
    · simp [handleAppJsxChange, hcode]
    · simp [handleAppJsxChange, hcode]

/-- Witness for C8: three writes at 0ms, 30ms and 60ms — gaps inside the
100ms quiet period — fire once, at 160ms, and run the handler once. -/
theorem debounce_coalescing_witness :
    fireTimes DEBOUNCE_MS [0, 30, 60] = [160] ∧
    ((fireTimes DEBOUNCE_MS [0, 30, 60]).map
        (fun _ => handleAppJsxChange (fun _ => Except.ok []) [] (some "x")
          "demo" emptyStatusStore [])).length = 1 := by
  have h := debounce_coalescing [] "change-demo" "state-demo" 0 [0, 30, 60]
    (fun _ => Except.ok []) [] "x" "demo" emptyStatusStore []
    (List.cons_ne_nil 0 [30, 60])
    (by simp [List.chain'_cons, DEBOUNCE_MS])
    (by decide)
  refine ⟨?_, h.2.2.2.1⟩
  rw [h.2.2.1]
  rfl

/-! ## C5: initial-scan selection -/

theorem insertByMtimeDesc_perm (x : CanvasWithMtime)
    (l : List CanvasWithMtime) : (insertByMtimeDesc x l).Perm (x :: l) := by
  induction l with
  | nil => exact List.Perm.refl _
  | cons y ys ih =>
      by_cases h : y.mtime ≤ x.mtime
      · rw [insertByMtimeDesc, if_pos h]
      · rw [insertByMtimeDesc, if_neg h]
        exact (ih.cons y).trans (List.Perm.swap x y ys)

theorem sortByMtimeDesc_perm (l : List CanvasWithMtime) :
    (sortByMtimeDesc l).Perm l := by
  induction l with
  | nil => exact List.Perm.refl _
  | cons x xs ih =>
      exact (insertByMtimeDesc_perm x (sortByMtimeDesc xs)).trans (ih.cons x)

theorem insertByMtimeDesc_pairwise (x : CanvasWithMtime)
    (l : List CanvasWithMtime)
    (h : l.Pairwise (fun a b => b.mtime ≤ a.mtime)) :
    (insertByMtimeDesc x l).Pairwise (fun a b => b.mtime ≤ a.mtime) := by
  induction l with
  | nil => simp [insertByMtimeDesc]
  | cons y ys ih =>
      rw [List.pairwise_cons] at h
      obtain ⟨hy, hys⟩ := h
      by_cases hc : y.mtime ≤ x.mtime
      · rw [insertByMtimeDesc, if_pos hc, List.pairwise_cons]
        refine ⟨?_, List.pairwise_cons.mpr ⟨hy, hys⟩⟩
        intro b hb
        rcases List.mem_cons.mp hb with rfl | hb'
        · exact hc
        · exact le_trans (hy b hb') hc
      · rw [insertByMtimeDesc, if_neg hc, List.pairwise_cons]
        refine ⟨?_, ih hys⟩
        intro b hb
        have hb' := (insertByMtimeDesc_perm x ys).mem_iff.mp hb
        rcases List.mem_cons.mp hb' with rfl | hb''
        · exact le_of_lt (lt_of_not_le hc)
        · exact hy b hb''

theorem sortByMtimeDesc_pairwise (l : List CanvasWithMtime) :
    (sortByMtimeDesc l).Pairwise (fun a b => b.mtime ≤ a.mtime) := by
  induction l with
  | nil => simp [sortByMtimeDesc]
  | cons x xs ih =>
      exact insertByMtimeDesc_pairwise x (sortByMtimeDesc xs) ih

theorem openRest_actions (port : Nat) (browserEnvAllows : Bool) (now : Nat)
    (rest : List CanvasWithMtime) (reg0 : CanvasMap)
    (acc0 : List (String × Bool)) :
    (rest.foldl (openRestStep port browserEnvAllows now) (reg0, acc0)).2 =
      acc0 ++ rest.map (fun c => (c.canvasId, false)) := by
  induction rest generalizing reg0 acc0 with
  | nil => simp
  | cons c cs ih =>
      rw [List.foldl_cons, openRestStep]
      rw [ih]
      simp [openCanvas]

theorem openRest_registry_isSome (port : Nat) (browserEnvAllows : Bool)
    (now : Nat) (rest : List CanvasWithMtime) (reg0 : CanvasMap)
    (acc0 : List (String × Bool)) (x : String)
    (h : (jsMapGet reg0 x).isSome) :
    (jsMapGet
        (rest.foldl (openRestStep port browserEnvAllows now)
          (reg0, acc0)).1 x).isSome := by
  induction rest generalizing reg0 acc0 with
  | nil => simpa using h
  | cons c cs ih =>
      rw [List.foldl_cons, openRestStep]
      exact ih _ _ (jsMapGet_isSome_set _ _ _ _ h)

theorem openRest_registry_mem (port : Nat) (browserEnvAllows : Bool)
    (now : Nat) (rest : List CanvasWithMtime) (reg0 : CanvasMap)
    (acc0 : List (String × Bool)) (c : CanvasWithMtime) (hc : c ∈ rest) :
    (jsMapGet
        (rest.foldl (openRestStep port browserEnvAllows now)
          (reg0, acc0)).1 c.canvasId).isSome := by
  induction rest generalizing reg0 acc0 with
  | nil => simp at hc
  | cons d ds ih =>
      rw [List.foldl_cons, openRestStep]
      rcases List.mem_cons.mp hc with rfl | hc'
      · apply openRest_registry_isSome
        simp [openCanvas, jsMapGet_set_self]
      · exact ih _ _ hc'

/-- C5: once the initial scan completes over a non-empty collection whose
entry files all still `stat` successfully (with pairwise-distinct
modification times, matching the source's tie-free regime, and the browser
not disabled), the collected sessions are resolved by modification time
descending: the `openCanvas` call sequence starts with the unique
most-recently-modified session carrying the visible browser-open action,
every other call carries no visible action, exactly one action in total is
visible, and afterwards every collected session is present in the
registry. -/
theorem initial_scan_selection (mtimeOf : String → Option Nat) (port : Nat)
    (now : Nat) (collected : List InitialCanvas) (reg : CanvasMap)
    (hne : collected ≠ [])
    (hstat : ∀ c ∈ collected, (mtimeOf c.filePath).isSome)
    (hdist : (collectMtimes mtimeOf collected).Pairwise
      (fun a b => a.mtime ≠ b.mtime)) :
    ∃ top : CanvasWithMtime,
      top ∈ collectMtimes mtimeOf collected ∧
      (∀ c ∈ collectMtimes mtimeOf collected, c ≠ top →
        c.mtime < top.mtime) ∧
      (processInitialCanvases mtimeOf port true now collected
          reg).actions.head? = some (top.canvasId, true) ∧
      (∀ a ∈ (processInitialCanvases mtimeOf port true now collected
          reg).actions.tail, a.2 = false) ∧
      ((processInitialCanvases mtimeOf port true now collected
          reg).actions.filter (fun a => a.2)).length = 1 ∧
      (∀ c ∈ collected,
        (jsMapGet (processInitialCanvases mtimeOf port true now collected
          reg).registry c.canvasId).isSome) := by
  have hwne : collectMtimes mtimeOf collected ≠ [] := by
    cases collected with
    | nil => exact absurd rfl hne
    | cons c cs =>
        have hc := hstat c (List.mem_cons_self c cs)
        obtain ⟨m, hm⟩ := Option.isSome_iff_exists.mp hc
        intro hempty
        have : (⟨c.canvasId, c.canvasPath, m⟩ : CanvasWithMtime) ∈
            collectMtimes mtimeOf (c :: cs) := by
          refine List.mem_filterMap.mpr ⟨c, List.mem_cons_self c cs, ?_⟩
          rw [hm]
          rfl
        rw [hempty] at this
        exact absurd this (List.not_mem_nil _)
  have hperm := sortByMtimeDesc_perm (collectMtimes mtimeOf collected)
  cases hsorted : sortByMtimeDesc (collectMtimes mtimeOf collected) with
  | nil =>
      rw [hsorted] at hperm
      exact absurd hperm.nil_eq.symm hwne
  | cons top rest =>
      rw [hsorted] at hperm
      refine ⟨top, ?_, ?_, ?_, ?_, ?_, ?_⟩
      · exact hperm.mem_iff.mp (List.mem_cons_self top rest)
      · intro c hc hcne
        have hcs : c ∈ top :: rest := hperm.symm.mem_iff.mp hc
        rcases List.mem_cons.mp hcs with rfl | hc'
        · exact absurd rfl hcne
        · have hsortedp := sortByMtimeDesc_pairwise
            (collectMtimes mtimeOf collected)
          rw [hsorted, List.pairwise_cons] at hsortedp
          have hle := hsortedp.1 c hc'
          have hdist' : (top :: rest).Pairwise
              (fun a b => a.mtime ≠ b.mtime) :=
            (hperm.pairwise_iff (fun hab => hab.symm)).mpr hdist
          rw [List.pairwise_cons] at hdist'
          have hneq := hdist'.1 c hc'
          omega
      · simp only [processInitialCanvases, hsorted]
        rw [openRest_actions]
        simp [openCanvas]
      · simp only [processInitialCanvases, hsorted]
        rw [openRest_actions]
        intro a ha
        simp only [List.singleton_append, List.tail_cons] at ha
        have := List.mem_map.mp ha
        obtain ⟨c, -, hc⟩ := this
        rw [← hc]
      · simp only [processInitialCanvases, hsorted]
        rw [openRest_actions]
        have hnil : (rest.map
            (fun c => (c.canvasId, false))).filter (fun a => a.2) = [] := by
          rw [List.filter_eq_nil]
          intro a ha
          obtain ⟨c, -, hc⟩ := List.mem_map.mp ha
          rw [← hc]
          simp
        simp [openCanvas, List.filter_append, hnil]
      · intro c hc
        have hcm := hstat c hc
        obtain ⟨m, hm⟩ := Option.isSome_iff_exists.mp hcm
        have hmem : (⟨c.canvasId, c.canvasPath, m⟩ : CanvasWithMtime) ∈
            collectMtimes mtimeOf collected := by
          refine List.mem_filterMap.mpr ⟨c, hc, ?_⟩
          rw [hm]
          rfl
        have hcs : (⟨c.canvasId, c.canvasPath, m⟩ : CanvasWithMtime) ∈
            top :: rest := hperm.symm.mem_iff.mp hmem
        simp only [processInitialCanvases, hsorted]
        rcases List.mem_cons.mp hcs with heq | hc'
        · have hid : c.canvasId = top.canvasId := by
            rw [← heq]
          rw [hid]
          apply openRest_registry_isSome
          simp [openCanvas, jsMapGet_set_self]
        · exact openRest_registry_mem port true now rest _ _ _ hc'

/-- Witness for C5: three sessions with modification times 10 < 20 < 30 —
only the third gets the visible open action; all three end up registered. -/
theorem initial_scan_selection_witness :
    ∃ top : CanvasWithMtime,
      top ∈ collectMtimes
        (fun fp => if fp = "f1" then some 10 else
          if fp = "f2" then some 30 else some 20)
        [⟨"c1", "p1", "f1"⟩, ⟨"c2", "p2", "f2"⟩, ⟨"c3", "p3", "f3"⟩] ∧
      (∀ c ∈ collectMtimes
          (fun fp => if fp = "f1" then some 10 else
            if fp = "f2" then some 30 else some 20)
          [⟨"c1", "p1", "f1"⟩, ⟨"c2", "p2", "f2"⟩, ⟨"c3", "p3", "f3"⟩],
        c ≠ top → c.mtime < top.mtime) ∧
      (processInitialCanvases
          (fun fp => if fp = "f1" then some 10 else
            if fp = "f2" then some 30 else some 20) 80 true 5
          [⟨"c1", "p1", "f1"⟩, ⟨"c2", "p2", "f2"⟩, ⟨"c3", "p3", "f3"⟩]
          []).actions.head? = some (top.canvasId, true) ∧
      (∀ a ∈ (processInitialCanvases
          (fun fp => if fp = "f1" then some 10 else
            if fp = "f2" then some 30 else some 20) 80 true 5
          [⟨"c1", "p1", "f1"⟩, ⟨"c2", "p2", "f2"⟩, ⟨"c3", "p3", "f3"⟩]
          []).actions.tail, a.2 = false) ∧
      ((processInitialCanvases
          (fun fp => if fp = "f1" then some 10 else
            if fp = "f2" then some 30 else some 20) 80 true 5
          [⟨"c1", "p1", "f1"⟩, ⟨"c2", "p2", "f2"⟩, ⟨"c3", "p3", "f3"⟩]
          []).actions.filter (fun a => a.2)).length = 1 ∧
      (∀ c ∈ [(⟨"c1", "p1", "f1"⟩ : InitialCanvas), ⟨"c2", "p2", "f2"⟩,
          ⟨"c3", "p3", "f3"⟩],
        (jsMapGet (processInitialCanvases
          (fun fp => if fp = "f1" then some 10 else
            if fp = "f2" then some 30 else some 20) 80 true 5
          [⟨"c1", "p1", "f1"⟩, ⟨"c2", "p2", "f2"⟩, ⟨"c3", "p3", "f3"⟩]
          []).registry c.canvasId).isSome) :=
  initial_scan_selection
    (fun fp => if fp = "f1" then some 10 else
      if fp = "f2" then some 30 else some 20) 80 5
    [⟨"c1", "p1", "f1"⟩, ⟨"c2", "p2", "f2"⟩, ⟨"c3", "p3", "f3"⟩] []
    (by decide) (by decide) (by decide)

end BrowserCanvas
